import Mathlib

/-!
Shallow embedding of `rust-typemap` (src/lib.rs, src/internals.rs).

The library is a type-indexed map: `TypeMap { data: HashMap<TypeId, Box<A>> }`.
Public operations are parameterized by a key type `K: Key` whose trait impl
fixes an associated value type `K::Value`; the map stores, under
`TypeId::of::<K>()`, an erased box produced by `Implements::into_object` from a
value of type `K::Value`, and recovers values with unchecked downcasts.

Embedding choices:
- `TypeId` is `Nat` (an opaque, decidably-equatable identifier).
- The `Key` trait's association `K ↦ K::Value` is a function
  `assoc : TypeId → TypeId` from the key type's id to its value type's id
  (Rust trait coherence makes the association functional).
- An erased box (`Box<A>`) is a `DynBox`: the `TypeId` of the hidden concrete
  type together with the hidden value's content, modelled as a `Nat` payload.
- `HashMap<TypeId, Box<A>>` is `AList (fun _ : TypeId => DynBox)`: a key-unique
  association list, matching the HashMap contract (at most one entry per key;
  no ordering is relied upon by the code).
- `downcast_unchecked::<T>` performs no check, so it is modelled as projecting
  the payload; the checked variant `downcast` models the type assertion the
  unchecked cast makes, so that its success can be stated and proved.
-/

namespace TypeMapSpec

/-- Rust `std::any::TypeId`: a process-wide unique identifier of a type. -/
abbrev TypeId := Nat

/-- An erased box `Box<A>`: the `TypeId` of the hidden concrete type plus the
hidden value's content. -/
structure DynBox where
  tid : TypeId
  payload : Nat
deriving DecidableEq, Repr

/-- the underlying `HashMap<TypeId, Box<A>>`, as a key-unique association
list. -/
abbrev TypeMap := AList (fun _ : TypeId => DynBox)

/-- Rust `Implements::into_object` at key type `k`: boxing a value of type
`K::Value` yields an erased box whose hidden type id is `assoc k` (the id of
`K::Value`). -/
def into_object (assoc : TypeId → TypeId) (k : TypeId) (v : Nat) : DynBox :=
  ⟨assoc k, v⟩

/-- Rust `downcast_unchecked::<T>` (also `downcast_ref_unchecked`,
`downcast_mut_unchecked`): no runtime check, just reinterpret the box as its
hidden value. -/
def downcast_unchecked (b : DynBox) : Nat :=
  b.payload

/-- a checked downcast to the type with id `t`: what the unchecked cast
asserts. It succeeds exactly when the hidden type is `t`. -/
def downcast (t : TypeId) (b : DynBox) : Option Nat :=
  if b.tid = t then some b.payload else none

namespace TypeMap

/-- Rust `TypeMap::custom()`: a fresh empty map (`HashMap::new()`). -/
def custom : TypeMap := ∅

/-- Rust `TypeMap::new()`: defined in the source as `TypeMap::custom()` at the
default bundle. -/
def new : TypeMap := custom

/-- Rust `TypeMap::insert::<K>(val)`: store `val.into_object()` under
`TypeId::of::<K>()`; the `HashMap::insert` result (the previous box, if any)
is mapped through `downcast_unchecked::<K::Value>`. Returns the pair
(returned `Option<K::Value>`, resulting map state). -/
def insert (assoc : TypeId → TypeId) (k : TypeId) (val : Nat) (m : TypeMap) :
    Option Nat × TypeMap :=
  ((AList.lookup k m).map downcast_unchecked,
   AList.insert k (into_object assoc k val) m)

/-- Rust `TypeMap::get::<K>()`: `HashMap::get` then `downcast_ref_unchecked`. -/
def get (k : TypeId) (m : TypeMap) : Option Nat :=
  (AList.lookup k m).map downcast_unchecked

/-- Rust `TypeMap::get_mut::<K>()`: same lookup, mutable borrow. -/
def get_mut (k : TypeId) (m : TypeMap) : Option Nat :=
  (AList.lookup k m).map downcast_unchecked

/-- Rust `TypeMap::contains::<K>()`: `HashMap::contains_key`. -/
def contains (k : TypeId) (m : TypeMap) : Bool :=
  (AList.lookup k m).isSome

/-- Rust `TypeMap::remove::<K>()`: `HashMap::remove` then `downcast_unchecked` on
the removed box. Returns (returned `Option<K::Value>`, resulting map state). -/
def remove (k : TypeId) (m : TypeMap) : Option Nat × TypeMap :=
  ((AList.lookup k m).map downcast_unchecked, AList.erase k m)

/-- Rust `TypeMap::len()`: `HashMap::len`. -/
def len (m : TypeMap) : Nat :=
  m.entries.length

/-- Rust `TypeMap::is_empty()`: `HashMap::is_empty`. -/
def is_empty (m : TypeMap) : Bool :=
  m.entries.isEmpty

/-- Rust `TypeMap::clear()`: `HashMap::clear`. -/
def clear (_ : TypeMap) : TypeMap :=
  ∅

/-- mutation through a `&mut K::Value` borrow handed out by `get_mut`,
`or_insert`, `or_insert_with`, `get_mut`/`into_mut` on an occupied entry, or
`VacantEntry::insert`: the slot must be present, and since the borrow has type
`&mut K::Value`, the written value again has type `K::Value`. -/
def write_through (assoc : TypeId → TypeId) (k : TypeId) (w : Nat)
    (m : TypeMap) : TypeMap :=
  match AList.lookup k m with
  | some _ => AList.insert k (into_object assoc k w) m
  | none => m

end TypeMap

/-- Rust `OccupiedEntry<'a, K, A>`: a view onto a present slot; it wraps
`hash_map::OccupiedEntry`, which can only exist while the key is present. -/
structure OccupiedEntry where
  key : TypeId
  map : TypeMap
  occupied : (AList.lookup key map).isSome

/-- Rust `VacantEntry<'a, K, A>`: a view onto an absent slot. -/
structure VacantEntry where
  key : TypeId
  map : TypeMap

/-- Rust `Entry<'a, K, A>`: either occupied or vacant. -/
inductive Entry where
  | Occupied (inner : OccupiedEntry)
  | Vacant (inner : VacantEntry)

/-- whether an `Entry` is the `Occupied` variant. -/
def Entry.isOccupied : Entry → Bool
  | .Occupied _ => true
  | .Vacant _ => false

/-- whether an `Entry` is the `Vacant` variant. -/
def Entry.isVacant : Entry → Bool
  | .Occupied _ => false
  | .Vacant _ => true

/-- Rust `TypeMap::entry::<K>()`: dispatch on `HashMap::entry`. -/
def TypeMap.entry (k : TypeId) (m : TypeMap) : Entry :=
  if h : (AList.lookup k m).isSome then .Occupied ⟨k, m, h⟩ else .Vacant ⟨k, m⟩

namespace OccupiedEntry

/-- Rust `OccupiedEntry::get()`: `downcast_ref_unchecked` on the present box. -/
def get (e : OccupiedEntry) : Nat :=
  downcast_unchecked ((AList.lookup e.key e.map).get e.occupied)

/-- Rust `OccupiedEntry::get_mut()`: same value, mutable borrow. -/
def get_mut (e : OccupiedEntry) : Nat :=
  downcast_unchecked ((AList.lookup e.key e.map).get e.occupied)

/-- Rust `OccupiedEntry::into_mut()`: promote the borrow to the map's lifetime. -/
def into_mut (e : OccupiedEntry) : Nat :=
  downcast_unchecked ((AList.lookup e.key e.map).get e.occupied)

/-- Rust `OccupiedEntry::insert(value)`: replace the box with
`value.into_object()`, returning the previous box unchecked-downcast to
`K::Value`. Returns (previous value, resulting map state). -/
def insert (assoc : TypeId → TypeId) (e : OccupiedEntry) (value : Nat) :
    Nat × TypeMap :=
  (downcast_unchecked ((AList.lookup e.key e.map).get e.occupied),
   AList.insert e.key (into_object assoc e.key value) e.map)

/-- Rust `OccupiedEntry::remove()`: take the box out, unchanged-downcast it.
Returns (removed value, resulting map state). -/
def remove (e : OccupiedEntry) : Nat × TypeMap :=
  (downcast_unchecked ((AList.lookup e.key e.map).get e.occupied),
   AList.erase e.key e.map)

end OccupiedEntry

/-- Rust `VacantEntry::insert(value)`: install `value.into_object()` and return a
mutable borrow of the installed value. Returns (borrowed value, resulting map
state). -/
def VacantEntry.insert (assoc : TypeId → TypeId) (e : VacantEntry)
    (value : Nat) : Nat × TypeMap :=
  (value, AList.insert e.key (into_object assoc e.key value) e.map)

/-- Rust `Entry::or_insert(default)`: `into_mut` when occupied, `insert(default)`
when vacant. Returns (borrowed value, resulting map state). -/
def Entry.or_insert (assoc : TypeId → TypeId) (e : Entry) (default : Nat) :
    Nat × TypeMap :=
  match e with
  | .Occupied inner => (inner.into_mut, inner.map)
  | .Vacant inner => inner.insert assoc default

/-- Rust `Entry::or_insert_with(default)`: as `or_insert`, but the producer is
called — only in the vacant branch — to obtain the value. -/
def Entry.or_insert_with (assoc : TypeId → TypeId) (e : Entry)
    (default : Unit → Nat) : Nat × TypeMap :=
  match e with
  | .Occupied inner => (inner.into_mut, inner.map)
  | .Vacant inner => inner.insert assoc (default ())

/-- Rust `CloneAny::clone_any` (internals.rs): clone the hidden value and box the
clone; the hidden type is unchanged and, by the `Clone` contract, the clone is
value-equal to the original. -/
def clone_any (b : DynBox) : DynBox :=
  ⟨b.tid, b.payload⟩

/-- Rust `impl Clone for TypeMap` (with a cloneable bundle, e.g. `CloneMap` or
`ShareCloneMap`): clone the underlying `HashMap`, which clones every box via
`clone_any`. -/
def TypeMap.clone (m : TypeMap) : TypeMap :=
  ⟨m.entries.map (fun e => ⟨e.1, clone_any e.2⟩), by
    have h : List.keys
        (m.entries.map fun e => (⟨e.1, clone_any e.2⟩ : Sigma fun _ : TypeId => DynBox))
        = List.keys m.entries := by
      simp [List.keys, List.map_map, Function.comp]
    have h2 := m.nodupKeys
    unfold List.NodupKeys at h2 ⊢
    rw [h]
    exact h2⟩

/-- The key–value type coherence invariant: every box present under key id `k`
hides a value of exactly the type `K::Value`, whose id is `assoc k`. -/
def Coherent (assoc : TypeId → TypeId) (m : TypeMap) : Prop :=
  ∀ k b, AList.lookup k m = some b → b.tid = assoc k

/-- Map states reachable through the public API: construction, `insert`,
`remove`, `clear`, the entry API, and writes through the `&mut K::Value`
borrows the API hands out. -/
inductive Reachable (assoc : TypeId → TypeId) : TypeMap → Prop where
  | new : Reachable assoc TypeMap.new
  | insert (k : TypeId) (v : Nat) (m : TypeMap) :
      Reachable assoc m → Reachable assoc (TypeMap.insert assoc k v m).2
  | remove (k : TypeId) (m : TypeMap) :
      Reachable assoc m → Reachable assoc (TypeMap.remove k m).2
  | clear (m : TypeMap) :
      Reachable assoc m → Reachable assoc (TypeMap.clear m)
  | or_insert (k : TypeId) (v : Nat) (m : TypeMap) :
      Reachable assoc m →
      Reachable assoc (Entry.or_insert assoc (TypeMap.entry k m) v).2
  | or_insert_with (k : TypeId) (f : Unit → Nat) (m : TypeMap) :
      Reachable assoc m →
      Reachable assoc (Entry.or_insert_with assoc (TypeMap.entry k m) f).2
  | occupied_insert (k : TypeId) (v : Nat) (m : TypeMap)
      (h : (AList.lookup k m).isSome) :
      Reachable assoc m →
      Reachable assoc (OccupiedEntry.insert assoc ⟨k, m, h⟩ v).2
  | occupied_remove (k : TypeId) (m : TypeMap)
      (h : (AList.lookup k m).isSome) :
      Reachable assoc m → Reachable assoc (OccupiedEntry.remove ⟨k, m, h⟩).2
  | vacant_insert (k : TypeId) (v : Nat) (m : TypeMap) :
      Reachable assoc m →
      Reachable assoc (VacantEntry.insert assoc ⟨k, m⟩ v).2
  | write (k : TypeId) (w : Nat) (m : TypeMap) :
      Reachable assoc m → Reachable assoc (TypeMap.write_through assoc k w m)

theorem coherent_empty (assoc : TypeId → TypeId) : Coherent assoc ∅ := by
  intro k b hb
  rw [AList.lookup_empty] at hb
  exact absurd hb (by simp)

theorem coherent_insert (assoc : TypeId → TypeId) (k : TypeId) (v : Nat)
    (m : TypeMap) (hm : Coherent assoc m) :
    Coherent assoc (AList.insert k (into_object assoc k v) m) := by
  intro k2 b hb
  by_cases hk : k2 = k
  · subst hk
    rw [AList.lookup_insert] at hb
    cases hb
    rfl
  · rw [AList.lookup_insert_ne hk] at hb
    exact hm k2 b hb

theorem coherent_erase (assoc : TypeId → TypeId) (k : TypeId) (m : TypeMap)
    (hm : Coherent assoc m) : Coherent assoc (AList.erase k m) := by
  intro k2 b hb
  by_cases hk : k2 = k
  · subst hk
    rw [AList.lookup_erase] at hb
    exact absurd hb (by simp)
  · rw [AList.lookup_erase_ne hk] at hb
    exact hm k2 b hb

theorem reachable_coherent (assoc : TypeId → TypeId) (m : TypeMap)
    (hr : Reachable assoc m) : Coherent assoc m := by
  induction hr with
  | new => exact coherent_empty assoc
  | insert k v m _ ih => exact coherent_insert assoc k v m ih
  | remove k m _ ih => exact coherent_erase assoc k m ih
  | clear m _ _ => exact coherent_empty assoc
  | or_insert k v m _ ih =>
      unfold TypeMap.entry
      by_cases h : (AList.lookup k m).isSome
      · simp only [h, dif_pos, Entry.or_insert]
        exact ih
      · simp only [h, dif_neg, Entry.or_insert, VacantEntry.insert]
        exact coherent_insert assoc k v m ih
  | or_insert_with k f m _ ih =>
      unfold TypeMap.entry
      by_cases h : (AList.lookup k m).isSome
      · simp only [h, dif_pos, Entry.or_insert_with]
        exact ih
      · simp only [h, dif_neg, Entry.or_insert_with, VacantEntry.insert]
        exact coherent_insert assoc k (f ()) m ih
  | occupied_insert k v m h _ ih => exact coherent_insert assoc k v m ih
  | occupied_remove k m h _ ih => exact coherent_erase assoc k m ih
  | vacant_insert k v m _ ih => exact coherent_insert assoc k v m ih
  | write k w m _ ih =>
      unfold TypeMap.write_through
      cases hl : AList.lookup k m with
      | some b => exact coherent_insert assoc k w m ih
      | none => exact ih

/-- C1: after any sequence of public operations, every box stored under
identifier(K) hides a value of exactly type `K::Value` (id `assoc k`), so the
checked form of every unchecked downcast performed by `insert`, `get`,
`get_mut`, `remove` and the entry operations succeeds and agrees with the
unchecked cast: the failure branch is unreachable. -/
theorem downcasts_always_succeed (assoc : TypeId → TypeId) (m : TypeMap)
    (hr : Reachable assoc m) :
    Coherent assoc m ∧
    ∀ k b, AList.lookup k m = some b →
      downcast (assoc k) b = some (downcast_unchecked b) := by
  have hc := reachable_coherent assoc m hr
  refine ⟨hc, ?_⟩
  intro k b hb
  unfold downcast downcast_unchecked
  rw [if_pos (hc k b hb)]

theorem downcasts_always_succeed_witness :
    downcast 101 ⟨101, 5⟩ = some (downcast_unchecked ⟨101, 5⟩) :=
  (downcasts_always_succeed (fun k => k + 100)
    (TypeMap.insert (fun k => k + 100) 1 5 TypeMap.new).2
    (Reachable.insert 1 5 TypeMap.new Reachable.new)).2 1 ⟨101, 5⟩ (by decide)

/-- C2: after `insert::<K>(v)`, `get::<K>()` returns `Some` of a borrow equal
to `v`. -/
theorem insert_get_roundtrip (assoc : TypeId → TypeId) (k : TypeId) (v : Nat)
    (m : TypeMap) :
    TypeMap.get k (TypeMap.insert assoc k v m).2 = some v := by
  unfold TypeMap.get TypeMap.insert
  rw [AList.lookup_insert]
  rfl

/-- C3: after `insert::<K>(v1); insert::<K>(v2)`, the second insert returns
`Some(v1)` and `get::<K>()` returns `v2`; in general `insert::<K>(v)` returns
exactly the previously stored value under `K` when one existed. -/
theorem insert_returns_previous (assoc : TypeId → TypeId) (k : TypeId)
    (v1 v2 : Nat) (m : TypeMap) :
    (TypeMap.insert assoc k v2 (TypeMap.insert assoc k v1 m).2).1 = some v1
    ∧ TypeMap.get k (TypeMap.insert assoc k v2
        (TypeMap.insert assoc k v1 m).2).2 = some v2
    ∧ (TypeMap.insert assoc k v2 m).1 = TypeMap.get k m := by
  refine ⟨?_, insert_get_roundtrip assoc k v2 _, rfl⟩
  show (AList.lookup k (AList.insert k (into_object assoc k v1) m)).map
      downcast_unchecked = some v1
  rw [AList.lookup_insert]
  rfl

/-- C4: after `insert::<K>(v); remove::<K>()` the remove returns `Some(v)`,
and afterwards `contains::<K>()` is false and `get::<K>()` is `None`;
`remove::<K>()` with no entry under `K` returns `None`. -/
theorem remove_empties_slot (assoc : TypeId → TypeId) (k : TypeId) (v : Nat)
    (m : TypeMap) :
    (TypeMap.remove k (TypeMap.insert assoc k v m).2).1 = some v
    ∧ TypeMap.contains k (TypeMap.remove k (TypeMap.insert assoc k v m).2).2
        = false
    ∧ TypeMap.get k (TypeMap.remove k (TypeMap.insert assoc k v m).2).2 = none
    ∧ (TypeMap.contains k m = false → (TypeMap.remove k m).1 = none) := by
  refine ⟨?_, ?_, ?_, ?_⟩
  · show (AList.lookup k (AList.insert k (into_object assoc k v) m)).map
        downcast_unchecked = some v
    rw [AList.lookup_insert]
    rfl
  · show (AList.lookup k (AList.erase k
        (AList.insert k (into_object assoc k v) m))).isSome = false
    rw [AList.lookup_erase]
    rfl
  · show (AList.lookup k (AList.erase k
        (AList.insert k (into_object assoc k v) m))).map downcast_unchecked
        = none
    rw [AList.lookup_erase]
    rfl
  · intro h
    show (AList.lookup k m).map downcast_unchecked = none
    cases hl : AList.lookup k m with
    | some b =>
        exact absurd h (by simp [TypeMap.contains, hl])
    | none => rfl

theorem remove_empties_slot_witness :
    (TypeMap.remove 2 (TypeMap.insert (fun k => k + 100) 2 5
      TypeMap.new).2).1 = some 5
    ∧ (TypeMap.remove 2 TypeMap.new).1 = none :=
  ⟨(remove_empties_slot (fun k => k + 100) 2 5 TypeMap.new).1,
   (remove_empties_slot (fun k => k + 100) 2 5 TypeMap.new).2.2.2 (by decide)⟩

/-- C10: `TypeMap::new()` and `TypeMap::custom()` produce the same empty map:
zero length, `is_empty`, and no key present. -/
theorem new_is_empty_map (k : TypeId) :
    TypeMap.len TypeMap.new = 0
    ∧ TypeMap.is_empty TypeMap.new = true
    ∧ TypeMap.contains k TypeMap.new = false
    ∧ TypeMap.get k TypeMap.new = none
    ∧ TypeMap.new = TypeMap.custom := by
  refine ⟨rfl, rfl, ?_, ?_, rfl⟩
  · show (AList.lookup k (∅ : TypeMap)).isSome = false
    rw [AList.lookup_empty]
    rfl
  · show (AList.lookup k (∅ : TypeMap)).map downcast_unchecked = none
    rw [AList.lookup_empty]
    rfl

/-- C5: `len()` counts exactly the key ids whose slot is present,
`is_empty()` holds iff `len() = 0`, and `clear()` leaves `len() = 0`. -/
theorem len_contains_coherence (m : TypeMap) :
    TypeMap.len m = Set.ncard {k : TypeId | TypeMap.contains k m = true}
    ∧ (TypeMap.is_empty m = true ↔ TypeMap.len m = 0)
    ∧ TypeMap.len (TypeMap.clear m) = 0 := by
  refine ⟨?_, ?_, rfl⟩
  · have hset : {k : TypeId | TypeMap.contains k m = true}
        = ↑(AList.keys m).toFinset := by
      ext k
      simp [TypeMap.contains, AList.lookup_isSome, AList.mem_keys]
    rw [hset, Set.ncard_coe_Finset,
      List.toFinset_card_of_nodup (AList.keys_nodup m)]
    show m.entries.length = (AList.keys m).length
    unfold AList.keys List.keys
    rw [List.length_map]
  · show m.entries.isEmpty = true ↔ m.entries.length = 0
    cases m.entries <;> simp

theorem clone_eq (m : TypeMap) : TypeMap.clone m = m := by
  apply AList.ext
  show m.entries.map (fun e => ⟨e.1, clone_any e.2⟩) = m.entries
  have hid : (fun e : Sigma fun _ : TypeId => DynBox =>
      (⟨e.1, clone_any e.2⟩ : Sigma fun _ : TypeId => DynBox)) = id := by
    funext e
    cases e
    rfl
  rw [hid, List.map_id]

/-- C8: cloning a map with a cloneable bundle clones every box via
`clone_any`, so both copies report the same presence, values, and length; each
slot of the clone is the `clone_any` image of the original slot (a fresh box
hiding a value-equal clone), so the copies share no storage and later
mutations of one cannot affect the other. -/
theorem clone_faithful (m : TypeMap) (k : TypeId) :
    AList.lookup k (TypeMap.clone m) = (AList.lookup k m).map clone_any
    ∧ TypeMap.get k (TypeMap.clone m) = TypeMap.get k m
    ∧ TypeMap.contains k (TypeMap.clone m) = TypeMap.contains k m
    ∧ TypeMap.len (TypeMap.clone m) = TypeMap.len m := by
  rw [clone_eq]
  refine ⟨?_, rfl, rfl, rfl⟩
  cases AList.lookup k m with
  | some b => rfl
  | none => rfl

/-- C9: operations parameterized by key type `K1` leave the slot of any other
key type `K2` (distinct type id) untouched: both its presence and its stored
box are unchanged. -/
theorem key_type_isolation (assoc : TypeId → TypeId) (k1 k2 : TypeId)
    (hne : k1 ≠ k2) (v w : Nat) (f : Unit → Nat) (m : TypeMap) :
    AList.lookup k2 (TypeMap.insert assoc k1 v m).2 = AList.lookup k2 m
    ∧ AList.lookup k2 (TypeMap.remove k1 m).2 = AList.lookup k2 m
    ∧ AList.lookup k2 (Entry.or_insert assoc (TypeMap.entry k1 m) v).2
        = AList.lookup k2 m
    ∧ AList.lookup k2 (Entry.or_insert_with assoc (TypeMap.entry k1 m) f).2
        = AList.lookup k2 m
    ∧ (∀ h : (AList.lookup k1 m).isSome,
        AList.lookup k2 (OccupiedEntry.insert assoc ⟨k1, m, h⟩ w).2
          = AList.lookup k2 m
        ∧ AList.lookup k2 (OccupiedEntry.remove ⟨k1, m, h⟩).2
          = AList.lookup k2 m)
    ∧ AList.lookup k2 (VacantEntry.insert assoc ⟨k1, m⟩ v).2
        = AList.lookup k2 m := by
  have hne2 : k2 ≠ k1 := hne.symm
  refine ⟨AList.lookup_insert_ne hne2, AList.lookup_erase_ne hne2, ?_, ?_,
    fun h => ⟨AList.lookup_insert_ne hne2, AList.lookup_erase_ne hne2⟩,
    AList.lookup_insert_ne hne2⟩
  · unfold TypeMap.entry
    by_cases h : (AList.lookup k1 m).isSome
    · rw [dif_pos h]
      rfl
    · rw [dif_neg h]
      exact AList.lookup_insert_ne hne2
  · unfold TypeMap.entry
    by_cases h : (AList.lookup k1 m).isSome
    · rw [dif_pos h]
      rfl
    · rw [dif_neg h]
      exact AList.lookup_insert_ne hne2

theorem key_type_isolation_witness :
    AList.lookup 2 (TypeMap.insert (fun k => k + 100) 1 7 TypeMap.new).2
      = AList.lookup 2 TypeMap.new :=
  (key_type_isolation (fun k => k + 100) 1 2 (by decide) 7 8 (fun _ => 9)
    TypeMap.new).1

theorem lookup_get_eq {k : TypeId} {m : TypeMap} {b : DynBox}
    (hl : AList.lookup k m = some b) (h : (AList.lookup k m).isSome) :
    (AList.lookup k m).get h = b := by
  have hs := Option.some_get h
  exact Option.some.inj (hs.trans hl)

/-- C6: on a vacant entry `or_insert(v)` installs `v` and returns it; on an
occupied entry it returns the stored value and leaves the map unchanged,
discarding `v`. `or_insert_with(f)` equals `or_insert(f())`, and when the
entry is occupied its result does not depend on the producer at all (the
producer is only invoked in the vacant branch). -/
theorem entry_or_insert_laws (assoc : TypeId → TypeId) (k : TypeId) (v : Nat)
    (m : TypeMap) :
    (TypeMap.contains k m = false →
       (Entry.or_insert assoc (TypeMap.entry k m) v).1 = v
       ∧ TypeMap.get k (Entry.or_insert assoc (TypeMap.entry k m) v).2
           = some v)
    ∧ (∀ w, TypeMap.get k m = some w →
       (Entry.or_insert assoc (TypeMap.entry k m) v).1 = w
       ∧ (Entry.or_insert assoc (TypeMap.entry k m) v).2 = m)
    ∧ (∀ f : Unit → Nat,
         Entry.or_insert_with assoc (TypeMap.entry k m) f
           = Entry.or_insert assoc (TypeMap.entry k m) (f ()))
    ∧ (TypeMap.contains k m = true →
       ∀ f g : Unit → Nat,
         Entry.or_insert_with assoc (TypeMap.entry k m) f
           = Entry.or_insert_with assoc (TypeMap.entry k m) g) := by
  by_cases h : (AList.lookup k m).isSome
  · refine ⟨?_, ?_, ?_, ?_⟩
    · intro hf
      exact absurd hf (by simp [TypeMap.contains, h])
    · intro w hw
      unfold TypeMap.entry
      rw [dif_pos h]
      refine ⟨?_, rfl⟩
      show downcast_unchecked ((AList.lookup k m).get h) = w
      obtain ⟨b, hl⟩ := Option.isSome_iff_exists.mp h
      unfold TypeMap.get at hw
      rw [hl] at hw
      rw [lookup_get_eq hl h]
      simpa [downcast_unchecked] using hw
    · intro f
      unfold TypeMap.entry
      rw [dif_pos h]
      rfl
    · intro _ f g
      unfold TypeMap.entry
      rw [dif_pos h]
      rfl
  · refine ⟨?_, ?_, ?_, ?_⟩
    · intro _
      unfold TypeMap.entry
      rw [dif_neg h]
      unfold Entry.or_insert VacantEntry.insert
      refine ⟨rfl, ?_⟩
      show (AList.lookup k (AList.insert k (into_object assoc k v) m)).map
          downcast_unchecked = some v
      rw [AList.lookup_insert]
      rfl
    · intro w hw
      have hn : AList.lookup k m = none := by
        cases hl : AList.lookup k m with
        | none => rfl
        | some b =>
            rw [hl] at h
            exact absurd rfl h
      unfold TypeMap.get at hw
      rw [hn] at hw
      cases hw
    · intro f
      unfold TypeMap.entry
      rw [dif_neg h]
      rfl
    · intro ht
      exact absurd ht (by simp [TypeMap.contains, h])

theorem entry_or_insert_laws_witness :
    ((Entry.or_insert (fun k => k + 100) (TypeMap.entry 3 TypeMap.new) 7).1
        = 7
      ∧ TypeMap.get 3 (Entry.or_insert (fun k => k + 100)
          (TypeMap.entry 3 TypeMap.new) 7).2 = some 7)
    ∧ ((Entry.or_insert (fun k => k + 100)
        (TypeMap.entry 3
          (TypeMap.insert (fun k => k + 100) 3 10 TypeMap.new).2) 7).1 = 10
      ∧ (Entry.or_insert (fun k => k + 100)
        (TypeMap.entry 3
          (TypeMap.insert (fun k => k + 100) 3 10 TypeMap.new).2) 7).2
        = (TypeMap.insert (fun k => k + 100) 3 10 TypeMap.new).2) :=
  ⟨(entry_or_insert_laws (fun k => k + 100) 3 7 TypeMap.new).1 (by decide),
   (entry_or_insert_laws (fun k => k + 100) 3 7
     (TypeMap.insert (fun k => k + 100) 3 10 TypeMap.new).2).2.1 10
     (by decide)⟩

/-- C7: when a value `v` is stored under `K`, `entry::<K>()` is occupied;
on that entry `get()` reads `v`, `insert(w)` returns `v` and replaces the
stored value with `w`, and `remove()` returns `v` and leaves the key absent.
When nothing is stored under `K`, `entry::<K>()` is vacant. -/
theorem occupied_entry_ops (assoc : TypeId → TypeId) (k : TypeId) (v w : Nat)
    (m m2 : TypeMap) (hget : TypeMap.get k m = some v) :
    (TypeMap.entry k m).isOccupied = true
    ∧ (∀ h : (AList.lookup k m).isSome,
        OccupiedEntry.get ⟨k, m, h⟩ = v
        ∧ (OccupiedEntry.insert assoc ⟨k, m, h⟩ w).1 = v
        ∧ TypeMap.get k (OccupiedEntry.insert assoc ⟨k, m, h⟩ w).2 = some w
        ∧ (OccupiedEntry.remove ⟨k, m, h⟩).1 = v
        ∧ TypeMap.contains k (OccupiedEntry.remove ⟨k, m, h⟩).2 = false)
    ∧ (TypeMap.contains k m2 = false →
        (TypeMap.entry k m2).isVacant = true) := by
  have hsome : (AList.lookup k m).isSome := by
    unfold TypeMap.get at hget
    cases hl : AList.lookup k m with
    | none =>
        rw [hl] at hget
        cases hget
    | some b => rfl
  refine ⟨?_, ?_, ?_⟩
  · unfold TypeMap.entry
    rw [dif_pos hsome]
    rfl
  · intro h
    obtain ⟨b, hl⟩ := Option.isSome_iff_exists.mp h
    unfold TypeMap.get at hget
    rw [hl] at hget
    have hb : downcast_unchecked b = v := by
      simpa [downcast_unchecked] using hget
    refine ⟨?_, ?_, ?_, ?_, ?_⟩
    · show downcast_unchecked ((AList.lookup k m).get h) = v
      rw [lookup_get_eq hl h, hb]
    · show downcast_unchecked ((AList.lookup k m).get h) = v
      rw [lookup_get_eq hl h, hb]
    · show (AList.lookup k
          (AList.insert k (into_object assoc k w) m)).map
          downcast_unchecked = some w
      rw [AList.lookup_insert]
      rfl
    · show downcast_unchecked ((AList.lookup k m).get h) = v
      rw [lookup_get_eq hl h, hb]
    · show (AList.lookup k (AList.erase k m)).isSome = false
      rw [AList.lookup_erase]
      rfl
  · intro hf
    unfold TypeMap.entry
    have hn : ¬(AList.lookup k m2).isSome = true := by
      simp [TypeMap.contains] at hf
      simp [hf]
    rw [dif_neg hn]
    rfl

theorem occupied_entry_ops_witness :
    (TypeMap.entry 1
      (TypeMap.insert (fun k => k + 100) 1 20 TypeMap.new).2).isOccupied
      = true
    ∧ OccupiedEntry.get
        ⟨1, (TypeMap.insert (fun k => k + 100) 1 20 TypeMap.new).2,
         by decide⟩ = 20
    ∧ (TypeMap.entry 1 TypeMap.new).isVacant = true :=
  ⟨(occupied_entry_ops (fun k => k + 100) 1 20 30
      (TypeMap.insert (fun k => k + 100) 1 20 TypeMap.new).2 TypeMap.new
      (by decide)).1,
   ((occupied_entry_ops (fun k => k + 100) 1 20 30
      (TypeMap.insert (fun k => k + 100) 1 20 TypeMap.new).2 TypeMap.new
      (by decide)).2.1 (by decide)).1,
   (occupied_entry_ops (fun k => k + 100) 1 20 30
      (TypeMap.insert (fun k => k + 100) 1 20 TypeMap.new).2 TypeMap.new
      (by decide)).2.2 (by decide)⟩

theorem insert_get_roundtrip_witness :
    TypeMap.get 4 (TypeMap.insert (fun k => k + 100) 4 11 TypeMap.new).2
      = some 11 :=
  insert_get_roundtrip (fun k => k + 100) 4 11 TypeMap.new

theorem insert_returns_previous_witness :
    (TypeMap.insert (fun k => k + 100) 5 13
      (TypeMap.insert (fun k => k + 100) 5 12 TypeMap.new).2).1 = some 12
    ∧ TypeMap.get 5 (TypeMap.insert (fun k => k + 100) 5 13
        (TypeMap.insert (fun k => k + 100) 5 12 TypeMap.new).2).2 = some 13
    ∧ (TypeMap.insert (fun k => k + 100) 5 13 TypeMap.new).1
        = TypeMap.get 5 TypeMap.new :=
  insert_returns_previous (fun k => k + 100) 5 12 13 TypeMap.new

theorem len_contains_coherence_witness :
    TypeMap.len (TypeMap.insert (fun k => k + 100) 6 1 TypeMap.new).2
      = Set.ncard {k : TypeId |
          TypeMap.contains k
            (TypeMap.insert (fun k => k + 100) 6 1 TypeMap.new).2 = true}
    ∧ (TypeMap.is_empty (TypeMap.insert (fun k => k + 100) 6 1 TypeMap.new).2
        = true
      ↔ TypeMap.len (TypeMap.insert (fun k => k + 100) 6 1 TypeMap.new).2 = 0)
    ∧ TypeMap.len (TypeMap.clear
        (TypeMap.insert (fun k => k + 100) 6 1 TypeMap.new).2) = 0 :=
  len_contains_coherence (TypeMap.insert (fun k => k + 100) 6 1 TypeMap.new).2

theorem clone_faithful_witness :
    AList.lookup 8 (TypeMap.clone
        (TypeMap.insert (fun k => k + 100) 8 3 TypeMap.new).2)
      = (AList.lookup 8
          (TypeMap.insert (fun k => k + 100) 8 3 TypeMap.new).2).map clone_any
    ∧ TypeMap.get 8 (TypeMap.clone
        (TypeMap.insert (fun k => k + 100) 8 3 TypeMap.new).2)
      = TypeMap.get 8 (TypeMap.insert (fun k => k + 100) 8 3 TypeMap.new).2
    ∧ TypeMap.contains 8 (TypeMap.clone
        (TypeMap.insert (fun k => k + 100) 8 3 TypeMap.new).2)
      = TypeMap.contains 8
          (TypeMap.insert (fun k => k + 100) 8 3 TypeMap.new).2
    ∧ TypeMap.len (TypeMap.clone
        (TypeMap.insert (fun k => k + 100) 8 3 TypeMap.new).2)
      = TypeMap.len (TypeMap.insert (fun k => k + 100) 8 3 TypeMap.new).2 :=
  clone_faithful (TypeMap.insert (fun k => k + 100) 8 3 TypeMap.new).2 8

theorem new_is_empty_map_witness :
    TypeMap.len TypeMap.new = 0
    ∧ TypeMap.is_empty TypeMap.new = true
    ∧ TypeMap.contains 9 TypeMap.new = false
    ∧ TypeMap.get 9 TypeMap.new = none
    ∧ TypeMap.new = TypeMap.custom :=
  new_is_empty_map 9

end TypeMapSpec
